/-
  Verification of the resilient stock-return pipeline (update_stocks.py).

  Shallow embedding conventions:
  * A pandas close value is `Option ℚ`: `none` models a value on which
    `float(...)` fails (NaN dropped later, or a non-convertible entry);
    `some q` is an ordinary numeric close price.
  * A pandas Series of closes is `List (Option ℚ)`; the Python value `None`
    standing for a whole missing series is the outer `Option` in
    `pct_change_from_n_days`.
  * Exceptions are modelled as `Except Unit` results for external calls and
    as `none` where the source catches them (`try/except` returning `None`).
  * Python `round(x, k)` (banker's rounding at k decimal places) is `pyRound`.
-/
import Mathlib

namespace UpdateStocks

/-- trading-day approximations (the OFFSETS dict of update_stocks.py). -/
def OFFSETS (k : String) : ℕ :=
  (([("OneMonth", 21), ("ThreeMonth", 63), ("SixMonth", 126), ("OneYear", 252)].lookup k).getD 0)

def RETRY_ATTEMPTS : ℕ := 3

/-- seconds -/
def RETRY_SLEEP : ℕ := 2

/-- Floor of a rational, computed from its normalized numerator/denominator. -/
def ratFloor (q : ℚ) : ℤ := Int.fdiv q.num q.den

/-- Round a rational to the nearest integer, ties to even (Python `round`). -/
def roundHalfEven (q : ℚ) : ℤ :=
  let f := ratFloor q
  let r := q - f
  if r < 1 / 2 then f
  else if 1 / 2 < r then f + 1
  else if f % 2 = 0 then f else f + 1

/-- Python `round(q, k)`: round to `k` decimal places, ties to even. -/
def pyRound (q : ℚ) (k : ℕ) : ℚ := (roundHalfEven (q * 10 ^ k) : ℚ) / 10 ^ k

/--
`pct_change_from_n_days(close_series, n_days)` of update_stocks.py.

close_series: `none` models the Python value `None`; otherwise the Series
of close prices in chronological order (each entry `Option ℚ`, with `none`
an entry whose `float(...)` conversion raises).  The `try` block of the
source maps an out-of-range `iloc` access and a failing `float(...)`
conversion alike to the caught-exception result `None`, modelled by the
catch-all match arm.
-/
def pct_change_from_n_days (close_series : Option (List (Option ℚ))) (n_days : ℤ) : Option ℚ :=
  match close_series with
  | none => none
  | some s =>
    if s.length = 0 then none
    else
      let last_idx : ℤ := (s.length : ℤ) - 1
      let lookback_idx : ℤ := last_idx - n_days
      if lookback_idx < 0 then none
      else
        match (s.get? last_idx.toNat).bind id, (s.get? lookback_idx.toNat).bind id with
        | some last, some earlier =>
            if earlier = 0 then none else some ((last - earlier) / earlier * 100)
        | _, _ => none

/-- One row of the yfinance history DataFrame: its date index, its Close
value (`none` = NaN or unconvertible), and a fingerprint of the remaining
column values (Open/High/Low/Volume), which `drop_duplicates` compares. -/
structure HRow where
  date : ℤ
  close : Option ℚ
  other : ℤ
deriving DecidableEq

/-- A history DataFrame: whether a "Close" column is present, and the rows. -/
structure HistDF where
  hasClose : Bool
  rows : List HRow
deriving DecidableEq

/-- `pd.DataFrame()`: no columns, no rows. -/
def emptyDF : HistDF := ⟨false, []⟩

/-- Stable insertion of a row into a date-sorted list (for `sort_index()`). -/
def insertByDate (r : HRow) : List HRow → List HRow
  | [] => [r]
  | s :: t => if r.date < s.date then r :: s :: t else s :: insertByDate r t

/-- `hist.sort_index()`: sort rows by date index. -/
def sortByDate : List HRow → List HRow
  | [] => []
  | r :: t => insertByDate r (sortByDate t)

/-- Worker for `drop_duplicates()`: keep the first occurrence of each row
value (all column values; the index does not participate). -/
def dropDupGo (seen : List (Option ℚ × ℤ)) : List HRow → List HRow
  | [] => []
  | r :: t =>
      if (r.close, r.other) ∈ seen then dropDupGo seen t
      else r :: dropDupGo ((r.close, r.other) :: seen) t

/-- `hist.drop_duplicates()`. -/
def dropDuplicates (rows : List HRow) : List HRow := dropDupGo [] rows

/--
Body of `safe_history`'s `while attempt < RETRY_ATTEMPTS` loop, with the
remaining iteration count `RETRY_ATTEMPTS - attempt` made explicit.
`fetch k` is the result of `ticker.history(...)` on the attempt with
counter value `k` (`Except.error` = the provider raised).  Returns the
resulting DataFrame together with the number of provider calls made and
the list of `time.sleep` durations performed.
-/
def safe_history_go (fetch : ℕ → Except Unit HistDF) :
    ℕ → ℕ → ℕ → List ℕ → HistDF × ℕ × List ℕ
  | _, 0, calls, sleeps => (emptyDF, calls, sleeps)
  | attempt, r + 1, calls, sleeps =>
      match fetch attempt with
      | .ok hist =>
          ((if hist.rows = [] then hist
            else { hist with rows := dropDuplicates (sortByDate hist.rows) }),
           calls + 1, sleeps)
      | .error _ =>
          safe_history_go fetch (attempt + 1) r (calls + 1) (sleeps ++ [RETRY_SLEEP])

/-- `safe_history(ticker, period="3y", interval="1d")`: the retry loop from
`attempt = 0`; the ticker, period and interval are absorbed into `fetch`. -/
def safe_history (fetch : ℕ → Except Unit HistDF) : HistDF × ℕ × List ℕ :=
  safe_history_go fetch 0 RETRY_ATTEMPTS 0 []

/--
The environment one symbol's processing sees: the per-attempt results of
`ticker.history` (through `safe_history`), the `fast_info` fallback quote,
the `ticker.info` metadata, whether an exception escapes `fetch_one`
altogether (caught by `main`'s orchestration loop), and the run timestamp
`datetime.utcnow().strftime(...)`.
-/
structure SymEnv where
  histFetch : ℕ → Except Unit HistDF
  hasFastInfo : Bool
  fastInfo : Except Unit (Option ℚ)
  info : Except Unit (Option String × Option String)
  raises : Bool
  now : String

/-- The DataFrame `fetch_one` obtains from `safe_history`. -/
def histOf (env : SymEnv) : HistDF := (safe_history env.histFetch).1

/-- `hist["Close"].dropna().reset_index(drop=True)` when the history branch
is taken (`not hist.empty and "Close" in hist.columns`), else the empty
series `pd.Series(dtype=float)` assigned in the fallback branch. -/
def close_series (env : SymEnv) : List ℚ :=
  if (histOf env).rows ≠ [] ∧ (histOf env).hasClose = true then
    ((histOf env).rows.map (fun r => r.close)).filterMap id
  else []

/-- Whether `fetch_one` takes its fallback branch (lines 75-81 of the
source): the history is empty or lacks a Close column. -/
def used_fallback (env : SymEnv) : Bool :=
  !((histOf env).rows ≠ [] ∧ (histOf env).hasClose = true : Bool)

/-- `t.fast_info.get("lastPrice") if hasattr(t, "fast_info") else None`,
wrapped in `try/except` that yields `None` on a raise. -/
def fallback_price (env : SymEnv) : Option ℚ :=
  match (if env.hasFastInfo then env.fastInfo else Except.ok none) with
  | .ok v => v
  | .error _ => none

/-- `cur_price` as resolved by `fetch_one`: last close of the (dropna'd)
series if the history branch is taken and the series is non-empty, `None`
if it is empty; otherwise the fast-info fallback. -/
def cur_price (env : SymEnv) : Option ℚ :=
  if (histOf env).rows ≠ [] ∧ (histOf env).hasClose = true then
    (close_series env).getLast?
  else fallback_price env

/-- Python truthiness of an optional string (`None` and `""` are falsy). -/
def truthyStr : Option String → Bool
  | none => false
  | some s => !(s = "" : Bool)

/-- `get_company_name(ticker_obj, symbol)`:
`info.get("shortName") or info.get("longName") or symbol`, with any
exception mapped to the symbol itself. -/
def get_company_name (env : SymEnv) (symbol : String) : String :=
  match env.info with
  | .error _ => symbol
  | .ok (shortName, longName) =>
      if truthyStr shortName then shortName.getD ""
      else if truthyStr longName then longName.getD ""
      else symbol

/-- A CSV cell value: a number or a literal string marker. -/
inductive Field where
  | num : ℚ → Field
  | str : String → Field
deriving DecidableEq

/-- `round(o, 2) if o is not None else "NA"` (lines 94-97). -/
def reportPct (o : Option ℚ) : Field :=
  match o with
  | some x => Field.num (pyRound x 2)
  | none => Field.str "NA"

/-- `round(float(cur_price), 4) if cur_price is not None else ""` (line 93). -/
def reportPrice (o : Option ℚ) : Field :=
  match o with
  | some p => Field.num (pyRound p 4)
  | none => Field.str ""

/-- The dict returned by `fetch_one` / appended by `main` (fixed columns). -/
structure Row where
  Symbol : String
  Company : String
  CurrentPrice : Field
  OneMonthPct : Field
  ThreeMonthPct : Field
  SixMonthPct : Field
  OneYearPct : Field
  DataAsOf : String
deriving DecidableEq

/-- `fetch_one(sym)` under environment `env` (no exception escaping). -/
def fetch_one (sym : String) (env : SymEnv) : Row :=
  { Symbol := sym
    Company := get_company_name env sym
    CurrentPrice := reportPrice (cur_price env)
    OneMonthPct := reportPct (pct_change_from_n_days
      (some ((close_series env).map some)) (OFFSETS "OneMonth"))
    ThreeMonthPct := reportPct (pct_change_from_n_days
      (some ((close_series env).map some)) (OFFSETS "ThreeMonth"))
    SixMonthPct := reportPct (pct_change_from_n_days
      (some ((close_series env).map some)) (OFFSETS "SixMonth"))
    OneYearPct := reportPct (pct_change_from_n_days
      (some ((close_series env).map some)) (OFFSETS "OneYear"))
    DataAsOf := env.now }

/-- The row `main`'s `except` branch appends (lines 114-123). -/
def fallbackRow (sym now : String) : Row :=
  { Symbol := sym
    Company := sym
    CurrentPrice := Field.str ""
    OneMonthPct := Field.str "NA"
    ThreeMonthPct := Field.str "NA"
    SixMonthPct := Field.str "NA"
    OneYearPct := Field.str "NA"
    DataAsOf := now }

/-- One iteration of `main`'s loop: the `try` block, with any exception
raised while processing the symbol replaced by the fallback row. -/
def processSymbol (sym : String) (env : SymEnv) : Row :=
  if env.raises then fallbackRow sym env.now else fetch_one sym env

/-- `main`'s `for sym in tickers` loop, appending one row per symbol;
`i` is the position of the current symbol (environments are per-position). -/
def mainLoop (envs : ℕ → SymEnv) : List String → ℕ → List Row
  | [], _ => []
  | sym :: rest, i => processSymbol sym (envs i) :: mainLoop envs rest (i + 1)

/-- `[l.strip().upper() for l in f if l.strip()]` (line 103). -/
def parse_tickers (lines : List String) : List String :=
  (lines.filter (fun l => !(l.trim = "" : Bool))).map (fun l => l.trim.toUpper)

/-- The list `rows` that `main` writes to the CSV, for symbol list `syms`. -/
def mainRows (syms : List String) (envs : ℕ → SymEnv) : List Row :=
  mainLoop envs syms 0

/-- A provider that raises on every history attempt. -/
def alwaysFailFetch : ℕ → Except Unit HistDF := fun _ => Except.error ()

/-- Environment in which every external call fails (used as a concrete
test input). -/
def envFail : SymEnv :=
  { histFetch := alwaysFailFetch
    hasFastInfo := false
    fastInfo := Except.ok none
    info := Except.error ()
    raises := false
    now := "2026-10-12 00:00:00" }

/-- Environment in which processing the symbol raises an exception that
reaches `main`'s orchestration loop. -/
def envRaise : SymEnv := { envFail with raises := true }

/-- Environment whose history has one row with a Close column whose only
value is NaN, while the fast-info fallback would report a price of 42. -/
def envNaNClose : SymEnv :=
  { histFetch := fun _ => Except.ok ⟨true, [⟨0, none, 0⟩]⟩
    hasFastInfo := true
    fastInfo := Except.ok (some 42)
    info := Except.ok (none, none)
    raises := false
    now := "2026-10-12 00:00:00" }

/-- Environment whose history has one valid close of 123/32 = 3.84375. -/
def envOneClose : SymEnv :=
  { histFetch := fun _ => Except.ok ⟨true, [⟨0, some (123 / 32), 0⟩]⟩
    hasFastInfo := false
    fastInfo := Except.ok none
    info := Except.ok (some "Example Corp", none)
    raises := false
    now := "2026-10-12 00:00:00" }

/-! ## Theorems about the Return Calculator -/

/-- C2: for every price series of length L and window offset n with
L - 1 - n < 0 (including the empty series), `pct_change_from_n_days`
returns the unavailable marker `none`, never a numeric value. -/
theorem pct_change_insufficient_history (s : List (Option ℚ)) (n : ℤ)
    (h : (s.length : ℤ) - 1 - n < 0) :
    pct_change_from_n_days (some s) n = none := by
  rcases Nat.eq_zero_or_pos s.length with h0 | h0
  · simp [pct_change_from_n_days, h0]
  · have h1 : s.length ≠ 0 := Nat.pos_iff_ne_zero.mp h0
    simp [pct_change_from_n_days, h1, h]

/-- C2 witness: the empty series with window 0 yields the unavailable
marker. -/
theorem pct_change_insufficient_history_witness :
    pct_change_from_n_days (some ([] : List (Option ℚ))) 0 = none :=
  pct_change_insufficient_history [] 0 (by decide)

/-- Reduction of the calculator to its inner match once the emptiness and
look-back guards have been discharged. -/
theorem pct_change_eq_match (s : List (Option ℚ)) (n : ℤ)
    (h1 : s.length ≠ 0) (hge : ¬ ((s.length : ℤ) - 1 - n < 0)) :
    pct_change_from_n_days (some s) n =
      match (s.get? (s.length - 1)).bind id,
          (s.get? (((s.length : ℤ) - 1 - n).toNat)).bind id with
      | some last, some earlier =>
          if earlier = 0 then none else some ((last - earlier) / earlier * 100)
      | _, _ => none := by
  have e : pct_change_from_n_days (some s) n =
      if s.length = 0 then none
      else if (s.length : ℤ) - 1 - n < 0 then none
      else
        match (s.get? (((s.length : ℤ) - 1).toNat)).bind id,
            (s.get? (((s.length : ℤ) - 1 - n).toNat)).bind id with
        | some last, some earlier =>
            if earlier = 0 then none else some ((last - earlier) / earlier * 100)
        | _, _ => none := rfl
  rw [e, if_neg h1, if_neg hge]
  have hts : ((s.length : ℤ) - 1).toNat = s.length - 1 := by omega
  rw [hts]

/-- C6: when the look-back index is valid and the close price there is
exactly 0, the Return Calculator yields the unavailable marker (written
as "NA"), so the division is never performed. -/
theorem pct_change_zero_divisor (s : List (Option ℚ)) (n : ℤ)
    (h : 0 ≤ (s.length : ℤ) - 1 - n)
    (hz : s.get? (((s.length : ℤ) - 1 - n).toNat) = some (some 0)) :
    pct_change_from_n_days (some s) n = none ∧
    reportPct (pct_change_from_n_days (some s) n) = Field.str "NA" := by
  have hlt : ((s.length : ℤ) - 1 - n).toNat < s.length := by
    rcases List.get?_eq_some.mp hz with ⟨hl, _⟩
    exact hl
  have h1 : s.length ≠ 0 := by omega
  have hge : ¬ ((s.length : ℤ) - 1 - n < 0) := not_lt.mpr h
  have hE : (s.get? (((s.length : ℤ) - 1 - n).toNat)).bind id = some 0 := by
    rw [hz]; rfl
  have hres : pct_change_from_n_days (some s) n = none := by
    rw [pct_change_eq_match s n h1 hge, hE]
    rcases hL : (s.get? (s.length - 1)).bind id with _ | last <;> simp [hL]
  exact ⟨hres, by rw [hres]; rfl⟩

/-- C6 witness: series [1, 0, 5] with offset 1 has look-back close 0 and
yields the unavailable marker. -/
theorem pct_change_zero_divisor_witness :
    pct_change_from_n_days (some [some 1, some 0, some 5]) 1 = none ∧
    reportPct (pct_change_from_n_days (some [some 1, some 0, some 5]) 1) =
      Field.str "NA" :=
  pct_change_zero_divisor [some 1, some 0, some 5] 1 (by decide) (by decide)

/-- C3: with a valid look-back index and a non-zero look-back close, the
calculator returns (last - earlier) / earlier * 100, and the reported
field is that value rounded to 2 decimal places. -/
theorem pct_change_valid_window (s : List ℚ) (n : ℕ)
    (h : (n : ℤ) ≤ (s.length : ℤ) - 1)
    (hz : s.getD (s.length - 1 - n) 0 ≠ 0) :
    pct_change_from_n_days (some (s.map some)) (n : ℤ) =
      some ((s.getD (s.length - 1) 0 - s.getD (s.length - 1 - n) 0) /
        s.getD (s.length - 1 - n) 0 * 100) ∧
    reportPct (pct_change_from_n_days (some (s.map some)) (n : ℤ)) =
      Field.num (pyRound ((s.getD (s.length - 1) 0 - s.getD (s.length - 1 - n) 0) /
        s.getD (s.length - 1 - n) 0 * 100) 2) := by
  have hlen : n + 1 ≤ s.length := by omega
  have hml : (s.map some).length = s.length := by simp
  have h1 : (s.map some).length ≠ 0 := by omega
  have hge : ¬ (((s.map some).length : ℤ) - 1 - (n : ℤ) < 0) := by
    rw [hml]; omega
  obtain ⟨last, hlastv⟩ : ∃ v, s.get? (s.length - 1) = some v :=
    ⟨_, List.get?_eq_get (by omega)⟩
  obtain ⟨earlier, hearlv⟩ : ∃ v, s.get? (s.length - 1 - n) = some v :=
    ⟨_, List.get?_eq_get (by omega)⟩
  have hgd1 : s.getD (s.length - 1) 0 = last := by
    rw [List.getD_eq_get?, hlastv]; rfl
  have hgd2 : s.getD (s.length - 1 - n) 0 = earlier := by
    rw [List.getD_eq_get?, hearlv]; rfl
  have ht2 : ((((s.map some).length : ℤ) - 1 - (n : ℤ)).toNat) = s.length - 1 - n := by
    rw [hml]; omega
  have hz2 : earlier ≠ 0 := hgd2 ▸ hz
  rw [hgd1, hgd2]
  have hres : pct_change_from_n_days (some (s.map some)) (n : ℤ) =
      some ((last - earlier) / earlier * 100) := by
    rw [pct_change_eq_match (s.map some) (n : ℤ) h1 hge, ht2, hml,
      List.get?_map, List.get?_map, hlastv, hearlv]
    simp only [Option.map_some', Option.some_bind, id_eq]
    rw [if_neg hz2]
  exact ⟨hres, by rw [hres]; rfl⟩

/-- C3 witness: the spec example — series [100, 110, 90, 105, 120] with
offset 2 gives (120 - 90) / 90 * 100 = 100/3, reported as 33.33. -/
theorem pct_change_valid_window_witness :
    pct_change_from_n_days
        (some (([100, 110, 90, 105, 120] : List ℚ).map some)) ((2 : ℕ) : ℤ) =
      some (100 / 3) ∧
    reportPct (pct_change_from_n_days
        (some (([100, 110, 90, 105, 120] : List ℚ).map some)) ((2 : ℕ) : ℤ)) =
      Field.num (3333 / 100) := by
  have h := pct_change_valid_window [100, 110, 90, 105, 120] 2
    (by norm_num) (by norm_num)
  constructor
  · rw [h.1]
    norm_num
  · rw [h.2]
    norm_num [pyRound, roundHalfEven, ratFloor, Int.fdiv]

/-- C8: the Return Calculator is deterministic — its result depends only
on the series and the offset.  `pct_change_from_n_days` is embedded as a
function of exactly these two arguments, mirroring the source, which
reads no clock and no mutable state. -/
theorem pct_change_deterministic (s1 s2 : Option (List (Option ℚ)))
    (n1 n2 : ℤ) (hs : s1 = s2) (hn : n1 = n2) :
    pct_change_from_n_days s1 n1 = pct_change_from_n_days s2 n2 := by
  rw [hs, hn]

/-- C8 witness: two invocations on the identical concrete series agree. -/
theorem pct_change_deterministic_witness :
    pct_change_from_n_days (some [some 100, some 110]) 1 =
      pct_change_from_n_days (some [some 100, some 110]) 1 :=
  pct_change_deterministic _ _ _ _ rfl rfl

/-- C9: no exception escapes the calculator: a negative offset (whose
look-back index lies beyond the last index, an out-of-range access) and a
non-numeric value at the accessed positions all produce the caught-result
`none`; the function is total. -/
theorem pct_change_never_raises (s : List (Option ℚ)) (n : ℤ) :
    (n < 0 → pct_change_from_n_days (some s) n = none) ∧
    (s.get? (((s.length : ℤ) - 1 - n).toNat) = some none →
      pct_change_from_n_days (some s) n = none) ∧
    (s.getLast? = some none → pct_change_from_n_days (some s) n = none) := by
  refine ⟨?_, ?_, ?_⟩
  · intro hn
    rcases Nat.eq_zero_or_pos s.length with h0 | h0
    · simp [pct_change_from_n_days, h0]
    · have h1 : s.length ≠ 0 := Nat.pos_iff_ne_zero.mp h0
      have hge : ¬ ((s.length : ℤ) - 1 - n < 0) := by omega
      have hE : (s.get? (((s.length : ℤ) - 1 - n).toNat)).bind id = none := by
        rw [List.get?_eq_none.mpr (by omega)]
        rfl
      rw [pct_change_eq_match s n h1 hge, hE]
      rcases hL : (s.get? (s.length - 1)).bind id with _ | last <;> simp [hL]
  · intro hz
    rcases Nat.eq_zero_or_pos s.length with h0 | h0
    · simp [pct_change_from_n_days, h0]
    · have h1 : s.length ≠ 0 := Nat.pos_iff_ne_zero.mp h0
      by_cases hge : (s.length : ℤ) - 1 - n < 0
      · simp [pct_change_from_n_days, h1, hge]
      · have hE : (s.get? (((s.length : ℤ) - 1 - n).toNat)).bind id = none := by
          rw [hz]
          rfl
        rw [pct_change_eq_match s n h1 hge, hE]
        rcases hL : (s.get? (s.length - 1)).bind id with _ | last <;> simp [hL]
  · intro hlast
    rcases Nat.eq_zero_or_pos s.length with h0 | h0
    · simp [pct_change_from_n_days, h0]
    · have h1 : s.length ≠ 0 := Nat.pos_iff_ne_zero.mp h0
      by_cases hge : (s.length : ℤ) - 1 - n < 0
      · simp [pct_change_from_n_days, h1, hge]
      · have hL : (s.get? (s.length - 1)).bind id = none := by
          rw [List.get?_eq_getElem?, ← List.getLast?_eq_getElem?, hlast]
          rfl
        rw [pct_change_eq_match s n h1 hge, hL]

/-- C9 witness: offset -1 on a singleton series (look-back index 1 is out
of range) yields `none` rather than an error. -/
theorem pct_change_never_raises_witness :
    pct_change_from_n_days (some [some 1]) (-1) = none :=
  (pct_change_never_raises [some 1] (-1)).1 (by decide)

/-! ## Theorems about the Fetcher and the orchestration loop -/

/-- The loop emits one row per symbol. -/
theorem mainLoop_length (envs : ℕ → SymEnv) (syms : List String) (i : ℕ) :
    (mainLoop envs syms i).length = syms.length := by
  induction syms generalizing i with
  | nil => rfl
  | cons sym rest ih => simp [mainLoop, ih]

/-- The k-th row of the loop started at position i is the processing of the
k-th symbol under the environment at position i + k. -/
theorem mainLoop_get (envs : ℕ → SymEnv) (syms : List String) (i k : ℕ) :
    (mainLoop envs syms i).get? k =
      (syms.get? k).map (fun sym => processSymbol sym (envs (i + k))) := by
  induction syms generalizing i k with
  | nil => simp [mainLoop]
  | cons sym rest ih =>
      cases k with
      | zero => simp [mainLoop]
      | succ k =>
          simp only [mainLoop, List.get?_cons_succ, ih (i + 1) k]
          have : i + 1 + k = i + (k + 1) := by omega
          rw [this]

/-- C1: the pipeline emits exactly one SummaryRow per input symbol, in
input order; a symbol whose processing raises is replaced by the fallback
row (symbol as company name, empty CurrentPrice, four "NA" returns),
never dropped. -/
theorem pipeline_row_completeness (syms : List String) (envs : ℕ → SymEnv) :
    (mainRows syms envs).length = syms.length ∧
    (∀ k : ℕ, (mainRows syms envs).get? k =
      (syms.get? k).map (fun sym => processSymbol sym (envs k))) ∧
    (∀ k : ℕ, ∀ sym : String, syms.get? k = some sym → (envs k).raises = true →
      (mainRows syms envs).get? k = some
        { Symbol := sym, Company := sym, CurrentPrice := Field.str "",
          OneMonthPct := Field.str "NA", ThreeMonthPct := Field.str "NA",
          SixMonthPct := Field.str "NA", OneYearPct := Field.str "NA",
          DataAsOf := (envs k).now }) := by
  refine ⟨mainLoop_length envs syms 0, ?_, ?_⟩
  · intro k
    simpa using mainLoop_get envs syms 0 k
  · intro k sym hk hr
    have h := mainLoop_get envs syms 0 k
    rw [hk] at h
    simpa [processSymbol, hr, fallbackRow] using h

/-- C1 witness: a two-symbol run in which the second symbol's processing
raises still yields two rows, the second being the fallback row. -/
theorem pipeline_row_completeness_witness :
    (mainRows ["AAPL", "MSFT"] (fun k => if k = 0 then envFail else envRaise)).length = 2 ∧
    (mainRows ["AAPL", "MSFT"] (fun k => if k = 0 then envFail else envRaise)).get? 1 =
      some
        { Symbol := "MSFT", Company := "MSFT", CurrentPrice := Field.str "",
          OneMonthPct := Field.str "NA", ThreeMonthPct := Field.str "NA",
          SixMonthPct := Field.str "NA", OneYearPct := Field.str "NA",
          DataAsOf := "2026-10-12 00:00:00" } := by
  have h := pipeline_row_completeness ["AAPL", "MSFT"]
    (fun k => if k = 0 then envFail else envRaise)
  exact ⟨h.1, h.2.2 1 "MSFT" rfl rfl⟩

/-- C4: if the provider raises on every attempt, `safe_history` makes
exactly RETRY_ATTEMPTS (= 3 > 0) provider calls, sleeps RETRY_SLEEP after
each failed attempt, returns the empty DataFrame rather than propagating
an error, and the pipeline still emits a row for the symbol. -/
theorem retry_exhaustion (sym : String) (env : SymEnv)
    (hfail : ∀ k, env.histFetch k = Except.error ()) :
    safe_history env.histFetch =
      (emptyDF, RETRY_ATTEMPTS, List.replicate RETRY_ATTEMPTS RETRY_SLEEP) ∧
    0 < RETRY_ATTEMPTS ∧
    (mainRows [sym] (fun _ => env)).length = 1 ∧
    ((mainRows [sym] (fun _ => env)).get? 0).map Row.Symbol = some sym := by
  refine ⟨?_, by decide, rfl, ?_⟩
  · simp [safe_history, RETRY_ATTEMPTS, RETRY_SLEEP, safe_history_go, hfail,
      List.replicate]
  · have : (mainRows [sym] (fun _ => env)).get? 0 =
        some (processSymbol sym env) := rfl
    rw [this]
    cases hr : env.raises <;>
      simp [processSymbol, hr, fetch_one, fallbackRow]

/-- C4 witness: the always-failing environment makes exactly 3 attempts,
returns the empty DataFrame, and the symbol still gets its row. -/
theorem retry_exhaustion_witness :
    safe_history envFail.histFetch =
      (emptyDF, RETRY_ATTEMPTS, List.replicate RETRY_ATTEMPTS RETRY_SLEEP) ∧
    0 < RETRY_ATTEMPTS ∧
    (mainRows ["AAPL"] (fun _ => envFail)).length = 1 ∧
    ((mainRows ["AAPL"] (fun _ => envFail)).get? 0).map Row.Symbol = some "AAPL" :=
  retry_exhaustion "AAPL" envFail (fun _ => rfl)

/-- C5 counterexample: a history with one row whose Close value is NaN.
The close-price series is empty, yet `fetch_one` does not query the
fast-info fallback (which would have returned 42): the fallback branch is
taken only when the DataFrame is empty or lacks a Close column, so
CurrentPrice is unavailable although a fallback quote existed. -/
theorem resolve_price_counterexample :
    close_series envNaNClose = [] ∧
    used_fallback envNaNClose = false ∧
    cur_price envNaNClose = none ∧
    fallback_price envNaNClose = some 42 :=
  ⟨rfl, rfl, rfl, rfl⟩

/-- C5 amended: CurrentPrice is the last close whenever the close-price
series is non-empty; the fallback lookup is queried exactly when the
fetched DataFrame is empty or has no Close column, and a failing or
empty fallback leaves CurrentPrice unavailable; when the history branch
is taken but every close is missing, CurrentPrice is unavailable without
querying the fallback. -/
theorem resolve_price_amended (env : SymEnv) :
    (close_series env ≠ [] → cur_price env = (close_series env).getLast?) ∧
    (used_fallback env = false ↔
      ((histOf env).rows ≠ [] ∧ (histOf env).hasClose = true)) ∧
    (used_fallback env = true → cur_price env = fallback_price env) ∧
    (env.hasFastInfo = false → fallback_price env = none) ∧
    (env.fastInfo = Except.error () → env.hasFastInfo = true →
      fallback_price env = none) ∧
    (used_fallback env = false → close_series env = [] → cur_price env = none) := by
  by_cases hb : (histOf env).rows ≠ [] ∧ (histOf env).hasClose = true
  · refine ⟨?_, ?_, ?_, ?_, ?_, ?_⟩
    · intro _
      simp [cur_price, hb]
    · simp [used_fallback, hb]
    · intro hu
      rw [used_fallback] at hu
      simp [hb] at hu
    · intro hf
      simp [fallback_price, hf]
    · intro he hf
      simp [fallback_price, hf, he]
    · intro _ hcs
      simp [cur_price, hb, hcs]
  · refine ⟨?_, ?_, ?_, ?_, ?_, ?_⟩
    · intro hcs
      exact absurd (by simp [close_series, hb]) hcs
    · simp [used_fallback, hb]
    · intro _
      simp [cur_price, hb]
    · intro hf
      simp [fallback_price, hf]
    · intro he hf
      simp [fallback_price, hf, he]
    · intro hu
      rw [used_fallback] at hu
      simp [hb] at hu

/-- C5 amended witness: with one valid close 123/32 the current price is
the last close; with the all-NaN history the current price is
unavailable. -/
theorem resolve_price_amended_witness :
    cur_price envOneClose = (close_series envOneClose).getLast? ∧
    cur_price envNaNClose = none :=
  ⟨(resolve_price_amended envOneClose).1 (by decide),
   (resolve_price_amended envNaNClose).2.2.2.2.2 rfl rfl⟩

/-- C7: every emitted field goes through the reporting maps: an
unavailable return is written exactly as the literal "NA", an unavailable
CurrentPrice exactly as the empty field, and neither marker coincides
with a numeric zero. -/
theorem output_unavailable_markers (sym : String) (env : SymEnv) :
    ((processSymbol sym env).CurrentPrice =
      reportPrice (if env.raises then none else cur_price env)) ∧
    ((processSymbol sym env).OneMonthPct =
      reportPct (if env.raises then none else pct_change_from_n_days
        (some ((close_series env).map some)) (OFFSETS "OneMonth"))) ∧
    ((processSymbol sym env).ThreeMonthPct =
      reportPct (if env.raises then none else pct_change_from_n_days
        (some ((close_series env).map some)) (OFFSETS "ThreeMonth"))) ∧
    ((processSymbol sym env).SixMonthPct =
      reportPct (if env.raises then none else pct_change_from_n_days
        (some ((close_series env).map some)) (OFFSETS "SixMonth"))) ∧
    ((processSymbol sym env).OneYearPct =
      reportPct (if env.raises then none else pct_change_from_n_days
        (some ((close_series env).map some)) (OFFSETS "OneYear"))) ∧
    (∀ o : Option ℚ, reportPct o = Field.str "NA" ↔ o = none) ∧
    (∀ o : Option ℚ, reportPrice o = Field.str "" ↔ o = none) ∧
    Field.str "NA" ≠ Field.num 0 ∧ Field.str "" ≠ Field.num 0 := by
  refine ⟨?_, ?_, ?_, ?_, ?_, ?_, ?_, by simp, by simp⟩
  · cases hr : env.raises <;>
      simp [processSymbol, hr, fetch_one, fallbackRow, reportPrice]
  · cases hr : env.raises <;>
      simp [processSymbol, hr, fetch_one, fallbackRow, reportPct]
  · cases hr : env.raises <;>
      simp [processSymbol, hr, fetch_one, fallbackRow, reportPct]
  · cases hr : env.raises <;>
      simp [processSymbol, hr, fetch_one, fallbackRow, reportPct]
  · cases hr : env.raises <;>
      simp [processSymbol, hr, fetch_one, fallbackRow, reportPct]
  · intro o
    cases o <;> simp [reportPct]
  · intro o
    cases o <;> simp [reportPrice]

/-- C7 witness: for the raising environment the emitted row has "NA"
returns and an empty CurrentPrice; the markers differ from numeric 0. -/
theorem output_unavailable_markers_witness :
    (processSymbol "AAPL" envRaise).OneMonthPct = Field.str "NA" ∧
    (processSymbol "AAPL" envRaise).CurrentPrice = Field.str "" ∧
    Field.str "NA" ≠ Field.num 0 := by
  have h := output_unavailable_markers "AAPL" envRaise
  exact ⟨h.2.1.trans rfl, h.1.trans rfl, h.2.2.2.2.2.2.2.1⟩

/-- C10: whenever a current price is resolved, the CurrentPrice field is
that price rounded to 4 decimal places. -/
theorem current_price_rounded (sym : String) (env : SymEnv) (p : ℚ)
    (hr : env.raises = false) (hp : cur_price env = some p) :
    (processSymbol sym env).CurrentPrice = Field.num (pyRound p 4) := by
  simp [processSymbol, hr, fetch_one, hp, reportPrice]

/-- C10 witness: a resolved price of 123/32 = 3.84375 is reported rounded
to 4 places with ties to even: 3.8438 = 19219/5000. -/
theorem current_price_rounded_witness :
    (processSymbol "AAPL" envOneClose).CurrentPrice = Field.num (19219 / 5000) := by
  have h := current_price_rounded "AAPL" envOneClose (123 / 32) rfl rfl
  rw [h]
  congr 1
  norm_num [pyRound, roundHalfEven, ratFloor, Int.fdiv]

end UpdateStocks
